import Mathlib

/-!
Verification of the bubble-pop minigame synchronization engine of
peterlowrance/who-said-dis.

The development shallowly embeds the JavaScript source:

* frontend/src/minigame/utils.js (utility helpers, the Mulberry32 PRNG,
  and the BubblePopEngine class together with its constants.js values), and
* server/gameState.js (the authoritative minigame ledger).

JavaScript numbers are embedded as exact rationals; the 32-bit coercions
performed by the bitwise operators are made explicit with modular
arithmetic on Nat/Int.  JS Maps, plain objects and Sets become
association lists and duplicate-free insertion lists.  Square roots are
eliminated by comparing squared distances against squared thresholds
(monotonicity of the square root on nonnegative reals makes the two
formulations equivalent).
-/

namespace WhoSaidDis

/-- Insertion for a JS Set: adding an element already present is a no-op. -/
def listInsert {β : Type} [DecidableEq β] (b : β) (l : List β) : List β :=
  if b ∈ l then l else b :: l

/-- Lookup in an association list, mirroring JS Map.get / object indexing. -/
def lookupA {κ α : Type} [BEq κ] (l : List (κ × α)) (k : κ) : Option α :=
  match l with
  | [] => none
  | q :: rest => if q.1 == k then some q.2 else lookupA rest k

/-- Update in an association list, mirroring JS Map.set / object assignment:
an existing binding is replaced in place, a missing key is appended. -/
def setAssoc {κ α : Type} [BEq κ] (l : List (κ × α)) (k : κ) (v : α) : List (κ × α) :=
  match l with
  | [] => [(k, v)]
  | q :: rest => if q.1 == k then (k, v) :: rest else q :: setAssoc rest k v

/-- Deletion from an association list, mirroring JS Map.delete. -/
def removeAssoc {κ α : Type} [BEq κ] (l : List (κ × α)) (k : κ) : List (κ × α) :=
  match l with
  | [] => []
  | q :: rest => if q.1 == k then rest else q :: removeAssoc rest k

/-- ToUint32 coercion of a JS number that holds an integer value. -/
def u32ofInt (n : Int) : Nat := (n % 4294967296).toNat

/-- ToInt32 coercion of a JS number that holds an integer value. -/
def i32ofInt (n : Int) : Int :=
  if n % 4294967296 ≥ 2147483648 then n % 4294967296 - 4294967296 else n % 4294967296

/-- hashString from utils.js: hash = ((hash << 5) - hash) + charCode, wrapped
to a signed 32-bit integer after every character. -/
def hashString (s : String) : Int :=
  s.data.foldl (fun h c => i32ofInt (i32ofInt (h * 32) - h + (c.toNat : Int))) 0

/-- Output mixing of the Mulberry32 generator in createPRNG (utils.js):
all operations act on the 32-bit pattern of the internal counter.
Nat.xor, the bitwise or and the logical shifts coincide with the JS int32
operations on 32-bit patterns; Math.imul is multiplication mod 2^32. -/
def mulberryMix (t0 : Nat) : Nat :=
  let t1 := Nat.xor t0 (t0 >>> 15) * (t0 ||| 1) % 4294967296
  let t2 := Nat.xor t1 ((t1 + Nat.xor t1 (t1 >>> 7) * (t1 ||| 61) % 4294967296) % 4294967296)
  Nat.xor t2 (t2 >>> 14)

/-- One call of the closure returned by createPRNG: the captured counter is
first advanced by 0x6D2B79F5 (exact JS float addition on integers), then the
mixed 32-bit value is scaled into [0, 1).  Returns (new counter, output). -/
def prngStep (st : Int) : Int × ℚ :=
  let st2 := st + 1831565813
  (st2, (mulberryMix (u32ofInt st2) : ℚ) / 4294967296)

/-! Constants from frontend/src/minigame/constants.js (physics units). -/

def worldWidth : ℚ := 400 / 30
def worldHeight : ℚ := 440 / 30
def avatarRadius : ℚ := 72 / 100
def groundedYThreshold : ℚ := worldHeight - avatarRadius - 1 / 2
def minLaunchPower : ℚ := 5
def maxLaunchPower : ℚ := 28
def bubbleSpawnInterval : ℚ := 2000
def bubbleMinRadius : ℚ := 2 / 5
def bubbleMaxRadius : ℚ := 4 / 5
def bubbleMinFallSpeed : ℚ := 1 / 5
def bubbleMaxFallSpeed : ℚ := 4 / 5
def bubbleMinGravity : ℚ := 1 / 20
def bubbleMaxGravity : ℚ := 1 / 5
def bubbleColorCount : Nat := 6

/-- clamp from utils.js: Math.max(min, Math.min(max, value)). -/
def clampQ (value lo hi : ℚ) : ℚ := max lo (min hi value)

/-- A 2D vector (planck.Vec2). -/
structure Vec2 where
  x : ℚ
  y : ℚ
deriving DecidableEq, Repr

/-- lerp of a vector toward a target by fraction t, as written inline in
syncPlayerState: cur + (target - cur) * t componentwise. -/
def vlerp (a b : Vec2) (t : ℚ) : Vec2 :=
  ⟨a.x + (b.x - a.x) * t, a.y + (b.y - a.y) * t⟩

/-- Strict betweenness used by the reconciliation claim: the point m lies on
the open segment from a to b and differs from both endpoints. -/
def strictlyBetween (a m b : Vec2) : Prop :=
  (∃ t : ℚ, 0 < t ∧ t < 1 ∧ m = vlerp a b t) ∧ m ≠ a ∧ m ≠ b

/-- Derived bubble attributes produced by spawnDeterministicBubble. -/
structure BubbleParams where
  radius : ℚ
  x0 : ℚ
  fallSpeed : ℚ
  bubbleGravity : ℚ
  colorIndex : Nat
deriving DecidableEq, Repr

/-- The five PRNG draws of spawnDeterministicBubble, with a generator
freshly seeded from syncSeed + slotIndex, in source order: radius,
horizontal position, fall speed, fall acceleration, color index. -/
def bubbleParams (syncSeed slotIndex : Int) : BubbleParams :=
  let st0 : Int := syncSeed + slotIndex
  let (st1, r1) := prngStep st0
  let (st2, r2) := prngStep st1
  let (st3, r3) := prngStep st2
  let (st4, r4) := prngStep st3
  let (_, r5) := prngStep st4
  let radius := bubbleMinRadius + r1 * (bubbleMaxRadius - bubbleMinRadius)
  let x0 := radius + r2 * (worldWidth - radius * 2)
  let fallSpeed := bubbleMinFallSpeed + r3 * (bubbleMaxFallSpeed - bubbleMinFallSpeed)
  let bubbleGravity := bubbleMinGravity + r4 * (bubbleMaxGravity - bubbleMinGravity)
  let colorIndex := (⌊r5 * (bubbleColorCount : ℚ)⌋).toNat
  ⟨radius, x0, fallSpeed, bubbleGravity, colorIndex⟩

/-- A live bubble entry of the engine bubbles map: derived parameters plus
the analytically computed vertical position and the slot spawn time. -/
structure Bubble where
  params : BubbleParams
  y : ℚ
  spawnTime : ℚ
deriving DecidableEq, Repr

/-- A player entry of the engine players map (physics body state plus the
local pop counter; sprites are rendering-only and omitted). -/
structure Player where
  pos : Vec2
  vel : Vec2
  isGrounded : Bool
  popCount : Nat
deriving DecidableEq, Repr

/-- The minigame_state snapshot payload (server minigameState shape). -/
structure Snapshot where
  poppedBubbles : List Int
  popCounts : List (String × Nat)
  playerPops : List (String × List Int)
deriving DecidableEq, Repr

/-- The BubblePopEngine state: every field that the embedded methods read
or write.  processedPopEvents holds the (playerId, bubbleId) pairs encoded
in the source as the string playerId:bubbleId. -/
structure EngineState where
  selfId : String
  isReady : Bool
  isDestroyed : Bool
  syncSeed : Int
  lastSlotIndex : Int
  lastGroundedState : Option Bool
  poppedIndices : List Int
  processedPopEvents : List (String × Int)
  bubbles : List (Int × Bubble)
  players : List (String × Player)
  pendingPlayers : List (String × String × Bool)
  serverState : Option Snapshot
deriving DecidableEq, Repr

/-- Lookup of a player, mirroring this.players.get(playerId). -/
def getPlayer (s : EngineState) (playerId : String) : Option Player :=
  lookupA s.players playerId

/-- The locally observed score of an actor (0 when the actor is unknown,
matching the player.popCount || 0 reads in the source). -/
def scoreOf (s : EngineState) (playerId : String) : Nat :=
  match getPlayer s playerId with
  | some p => p.popCount
  | none => 0

/-- Identifiers of the live bubbles. -/
def bubbleIds (s : EngineState) : List Int := s.bubbles.map Prod.fst

/-- The retirement prefix of BubblePopEngine.handleBubblePop: record the
index as popped and destroy a live bubble (pop animation and sprite removal
are rendering-only). -/
def retireBubble (s : EngineState) (bubbleId : Int) : EngineState :=
  let s1 := { s with poppedIndices := listInsert bubbleId s.poppedIndices }
  match lookupA s1.bubbles bubbleId with
  | some _ => { s1 with bubbles := removeAssoc s1.bubbles bubbleId }
  | none => s1

/-- BubblePopEngine.handleBubblePop.  Runs the retirement prefix and, when
the event is a local collision report (isLocal), performs the once-only score
increment guarded by processedPopEvents.  The second component is the
onPopCallback invocation (playerId, bubbleId, newScore), when one happens. -/
def handleBubblePop (s : EngineState) (bubbleId : Int) (playerId : String)
    (isLocal : Bool) : EngineState × Option (String × Int × Nat) :=
  let s2 := retireBubble s bubbleId
  if isLocal then
    if (playerId, bubbleId) ∈ s2.processedPopEvents then (s2, none)
    else
      let s3 := { s2 with processedPopEvents := (playerId, bubbleId) :: s2.processedPopEvents }
      match getPlayer s3 playerId with
      | some p =>
        let newScore := p.popCount + 1
        ({ s3 with players := setAssoc s3.players playerId ({ p with popCount := newScore }) },
          some (playerId, bubbleId, newScore))
      | none => (s3, none)
  else (s2, none)

/-- The onPop handler of the BubblePopGame wrapper: the outbound
minigame_bubble_popped message is emitted only when the popping actor is the
local actor. -/
def wrapperEmit (selfId : String) (cb : Option (String × Int × Nat)) : Option (String × Int) :=
  match cb with
  | some (pid, bid, _) => if pid == selfId then some (pid, bid) else none
  | none => none

/-- The minigame_bubble_popped socket listener of the wrapper: a remote pop
message for a non-local actor is routed to handleBubblePop with
isLocal = false; messages echoing the local actor are dropped. -/
def handleBubblePopped (s : EngineState) (playerId : String) (bubbleId : Int) : EngineState :=
  if playerId == s.selfId then s else (handleBubblePop s bubbleId playerId false).1

/-- One entry of the syncScores merge: for the local actor an incoming
value is accepted only when it strictly exceeds the current one; for every
other actor it overwrites. -/
def scoreMergeStep (st : EngineState) (pc : String × Nat) : EngineState :=
  match lookupA st.players pc.1 with
  | none => st
  | some p =>
    if pc.1 == st.selfId then
      if pc.2 > p.popCount then
        { st with players := setAssoc st.players pc.1 ({ p with popCount := pc.2 }) }
      else st
    else
      { st with players := setAssoc st.players pc.1 ({ p with popCount := pc.2 }) }

/-- BubblePopEngine.syncScores: the periodic authoritative score merge,
entry by entry over the received table. -/
def syncScores (s : EngineState) (popCounts : Option (List (String × Nat))) : EngineState :=
  match popCounts with
  | none => s
  | some table => table.foldl scoreMergeStep s

/-- A sequence of periodic authoritative score merges, applied in order. -/
def periodicMerges (s : EngineState) (tables : List (List (String × Nat))) : EngineState :=
  tables.foldl (fun st t => syncScores st (some t)) s

/-- BubblePopEngine.syncMinigameState: the late-joiner snapshot merge.
Retires every popped index, overwrites every known score unconditionally,
and seeds the processed-event ledger. -/
def snapshotPopStep (acc : EngineState) (id : Int) : EngineState :=
  let acc1 := { acc with poppedIndices := listInsert id acc.poppedIndices }
  match lookupA acc1.bubbles id with
  | some _ => { acc1 with bubbles := removeAssoc acc1.bubbles id }
  | none => acc1

def snapshotScoreStep (acc : EngineState) (pc : String × Nat) : EngineState :=
  match lookupA acc.players pc.1 with
  | none => acc
  | some p => { acc with players := setAssoc acc.players pc.1 ({ p with popCount := pc.2 }) }

def snapshotSeenStep (acc : EngineState) (pp : String × List Int) : EngineState :=
  pp.2.foldl (fun acc2 bid =>
    { acc2 with processedPopEvents := listInsert (pp.1, bid) acc2.processedPopEvents }) acc

def syncMinigameState (s : EngineState) (state : Option Snapshot) : EngineState :=
  match state with
  | none => s
  | some st =>
    let s0 := { s with serverState := some st }
    let s1 := st.poppedBubbles.foldl snapshotPopStep s0
    let s2 := st.popCounts.foldl snapshotScoreStep s1
    st.playerPops.foldl snapshotSeenStep s2

/-- BubblePopEngine.spawnDeterministicBubble.  Takes the wall-clock time
(Date.now(), in milliseconds) as an explicit parameter.  Skips popped or
already-present indices, reconstructs the analytic fall position, and does
not materialize a bubble that is already below the playable region. -/
def spawnDeterministicBubble (s : EngineState) (slotIndex : Int) (now : ℚ) : EngineState :=
  if s.isReady = false ∨ slotIndex ∈ s.poppedIndices ∨ s.isDestroyed = true then s
  else if (lookupA s.bubbles slotIndex).isSome then s
  else
    let pr := bubbleParams s.syncSeed slotIndex
    let spawnTime : ℚ := (slotIndex : ℚ) * bubbleSpawnInterval
    let elapsed := (now - spawnTime) / 1000
    let startY := -pr.radius
    let currentY := startY + pr.fallSpeed * elapsed + (1 / 2) * pr.bubbleGravity * elapsed * elapsed
    if currentY > worldHeight + pr.radius then s
    else { s with bubbles :=
      (setAssoc s.bubbles slotIndex { params := pr, y := currentY, spawnTime := spawnTime }) }

/-- The grounded assessment of isPlayerGrounded on a player record:
pos.y >= GROUNDED_Y_THRESHOLD and speed < GROUNDED_VELOCITY_THRESHOLD (1.0).
The speed comparison is stated on squares, which is equivalent because the
square root is monotone on nonnegative numbers. -/
def isGroundedTest (p : Player) : Bool :=
  decide (groundedYThreshold ≤ p.pos.y) && decide (p.vel.x * p.vel.x + p.vel.y * p.vel.y < 1)

/-- BubblePopEngine.isPlayerGrounded: false for an unknown player. -/
def isPlayerGrounded (s : EngineState) (playerId : String) : Bool :=
  match getPlayer s playerId with
  | some p => isGroundedTest p
  | none => false

/-- BubblePopEngine.launchAvatar.  The cosine and sine of the launch angle
are passed as rational parameters (the values the JS runtime computes for
Math.cos and Math.sin); the gating logic does not depend on them.  Returns
the new state and the success flag. -/
def launchAvatar (s : EngineState) (playerId : String) (cosA sinA power : ℚ) :
    EngineState × Bool :=
  if s.isReady = false then (s, false)
  else match getPlayer s playerId with
  | none => (s, false)
  | some p =>
    if isGroundedTest p = false then (s, false)
    else
      let cp := clampQ power minLaunchPower maxLaunchPower
      let s2 := { s with players :=
        (setAssoc s.players playerId { p with vel := ⟨cosA * cp, sinA * cp⟩, isGrounded := false }) }
      let s3 := if playerId == s.selfId then { s2 with lastGroundedState := some false } else s2
      (s3, true)

/-- The minigame_launch socket listener of the wrapper: an inbound launch
message for a non-local actor is applied through launchAvatar. -/
def handleOtherLaunch (s : EngineState) (playerId : String) (cosA sinA power : ℚ) : EngineState :=
  if playerId == s.selfId then s else (launchAvatar s playerId cosA sinA power).1

/-- BubblePopEngine.syncPlayerState: reconciliation of a remote position and
velocity sample.  The source compares sqrt(dsq) with 2.0 and 0.05; here the
equivalent comparisons of dsq with 4 and 1/400 are used. -/
def syncPlayerState (s : EngineState) (playerId : String) (sx sy svx svy : ℚ) : EngineState :=
  if playerId == s.selfId then s
  else match getPlayer s playerId with
  | none => s
  | some p =>
    let dsq := (sx - p.pos.x) * (sx - p.pos.x) + (sy - p.pos.y) * (sy - p.pos.y)
    if dsq > 4 then
      { s with players :=
          (setAssoc s.players playerId { p with pos := ⟨sx, sy⟩, vel := ⟨svx, svy⟩ }) }
    else if dsq > 1 / 400 then
      let tp := vlerp p.pos ⟨sx, sy⟩ (3 / 10)
      let tv := vlerp p.vel ⟨svx, svy⟩ (1 / 5)
      { s with players := setAssoc s.players playerId ({ p with pos := tp, vel := tv }) }
    else s

/-- The player record created inside addPlayer: a deterministic floor
position derived from hashString(playerId), zero velocity, grounded, and an
initial pop count taken from a stored server snapshot when one exists. -/
def newPlayerFor (serverState : Option Snapshot) (playerId : String) : Player :=
  let h := hashString playerId
  let nh : ℚ := ((h.natAbs % 1000 : Nat) : ℚ) / 1000
  let x := avatarRadius + nh * (worldWidth - avatarRadius * 2)
  let y := worldHeight - avatarRadius - 1 / 10
  let initialCount := match serverState with
    | some st => (lookupA st.popCounts playerId).getD 0
    | none => 0
  { pos := ⟨x, y⟩, vel := ⟨0, 0⟩, isGrounded := true, popCount := initialCount }

/-- BubblePopEngine.addPlayer.  Before the engine is ready the request is
queued on pendingPlayers; afterwards an unknown player is inserted (and
marked as the local actor when isOwn). -/
def addPlayer (s : EngineState) (playerId avatarSeed : String) (isOwn : Bool) : EngineState :=
  if s.isReady = false then
    { s with pendingPlayers := s.pendingPlayers ++ [(playerId, avatarSeed, isOwn)] }
  else if (getPlayer s playerId).isSome then s
  else
    let s2 := { s with players := setAssoc s.players playerId (newPlayerFor s.serverState playerId) }
    if isOwn then { s2 with selfId := playerId, lastGroundedState := some true } else s2

/-- BubblePopEngine.removePlayer: unknown players are ignored, known ones
are deleted from the players map.  There is no readiness queue here. -/
def removePlayer (s : EngineState) (playerId : String) : EngineState :=
  match getPlayer s playerId with
  | none => s
  | some _ => { s with players := removeAssoc s.players playerId }

/-- The slot indices of the catch-up loop in init: currentSlot - 10 up to
currentSlot, of which only the nonnegative ones are passed to the spawner. -/
def catchupSlots (currentSlot : Int) : List Int :=
  (List.range 11).map (fun k => currentSlot - 10 + (k : Int))

/-- The deterministic tail of BubblePopEngine.init, starting at the slot
catch-up (rendering and physics-world construction are omitted): set
lastSlotIndex, run the catch-up spawner calls, mark the engine ready, then
replay the queued addPlayer requests in order and clear the queue.  Note
that the catch-up spawns run before isReady is set, exactly as in the
source. -/
def initSpawnStep (now : ℚ) (st : EngineState) (i : Int) : EngineState :=
  if 0 ≤ i then spawnDeterministicBubble st i now else st

def replayAddStep (st : EngineState) (r : String × String × Bool) : EngineState :=
  addPlayer st r.1 r.2.1 r.2.2

def initComplete (s : EngineState) (now : ℚ) : EngineState :=
  let currentSlot : Int := ⌊now / bubbleSpawnInterval⌋
  let s1 := { s with lastSlotIndex := currentSlot - 1 }
  let s2 := (catchupSlots currentSlot).foldl (initSpawnStep now) s1
  let s3 := { s2 with isReady := true }
  let s4 := s3.pendingPlayers.foldl replayAddStep s3
  { s4 with pendingPlayers := [] }

/-- The engine state with its pending queue replaced. -/
def withPending (s : EngineState) (P : List (String × String × Bool)) : EngineState :=
  { s with pendingPlayers := P }

/-- The state reached by init just before the pending replay: current slot
recorded and readiness set (the catch-up spawns are no-ops, see below). -/
def readyBase (s : EngineState) (now : ℚ) : EngineState :=
  { s with lastSlotIndex := ⌊now / bubbleSpawnInterval⌋ - 1, isReady := true }

/-- The bubble-slot check at the top of BubblePopEngine.update: with
currentSlot = floor(now / BUBBLE_SPAWN_INTERVAL), a single spawn request is
issued for currentSlot when it exceeds lastSlotIndex, which is then advanced
to currentSlot.  Returns the list of requested slot indices and the new
lastSlotIndex. -/
def updateSlotCheck (lastSlotIndex : Int) (now : ℚ) : List Int × Int :=
  let currentSlot : Int := ⌊now / bubbleSpawnInterval⌋
  if currentSlot > lastSlotIndex then ([currentSlot], currentSlot) else ([], lastSlotIndex)

/-- The per-call result of spawnDeterministicBubble as a pure value: the
trace of derived parameters over a history of spawner calls for slot
indices, in call order. -/
def spawnParamsTrace (sharedSeed : String) (slots : List Int) : List BubbleParams :=
  slots.map (fun i => bubbleParams (hashString sharedSeed) i)

/-! The server-side authoritative ledger (server/gameState.js). -/

/-- The minigameState ledger of the server GameState. -/
structure MinigameLedger where
  popCounts : List (String × Nat)
  poppedBubbles : List Int
  playerPops : List (String × List Int)
deriving DecidableEq, Repr

/-- The bubbles a given player has already been credited for. -/
def popsOf (ms : MinigameLedger) (playerId : String) : List Int :=
  (lookupA ms.playerPops playerId).getD []

/-- The authoritative pop count of a player (0 when absent). -/
def countOf (ms : MinigameLedger) (playerId : String) : Nat :=
  (lookupA ms.popCounts playerId).getD 0

/-- GameState.recordMinigamePop: credit the (playerId, bubbleId) pair once,
appending the bubble to poppedBubbles on the first report by anyone; the
returned flag is true exactly in that first-report case. -/
def recordMinigamePop (ms : MinigameLedger) (playerId : String) (bubbleId : Int) :
    MinigameLedger × Bool :=
  let pops := popsOf ms playerId
  if bubbleId ∈ pops then (ms, false)
  else
    let ms1 := { ms with playerPops := setAssoc ms.playerPops playerId (bubbleId :: pops) }
    let ms2 := { ms1 with popCounts := setAssoc ms1.popCounts playerId (countOf ms playerId + 1) }
    if bubbleId ∈ ms2.poppedBubbles then (ms2, false)
    else ({ ms2 with poppedBubbles := ms2.poppedBubbles ++ [bubbleId] }, true)

/-! Event alphabet for whole-engine invariants: every embedded mutator of
the engine state, so that monotonicity claims quantify over arbitrary
interleavings of collision reports, inbound messages and API calls. -/

/-- One engine-mutating event. -/
inductive EngineEvent where
  | popEvt (bubbleId : Int) (playerId : String) (isLocal : Bool)
  | snapshotEvt (st : Snapshot)
  | spawnEvt (slotIndex : Int) (now : ℚ)
  | scoresEvt (table : List (String × Nat))
  | sampleEvt (playerId : String) (sx sy svx svy : ℚ)
  | launchEvt (playerId : String) (cosA sinA power : ℚ)
  | addEvt (playerId avatarSeed : String) (isOwn : Bool)
  | removeEvt (playerId : String)

/-- Apply one event to the engine state. -/
def applyEvent (s : EngineState) (e : EngineEvent) : EngineState :=
  match e with
  | .popEvt bid pid loc => (handleBubblePop s bid pid loc).1
  | .snapshotEvt st => syncMinigameState s (some st)
  | .spawnEvt i now => spawnDeterministicBubble s i now
  | .scoresEvt t => syncScores s (some t)
  | .sampleEvt pid sx sy svx svy => syncPlayerState s pid sx sy svx svy
  | .launchEvt pid c sn pw => handleOtherLaunch s pid c sn pw
  | .addEvt pid seed own => addPlayer s pid seed own
  | .removeEvt pid => removePlayer s pid

/-- Apply a sequence of events in order. -/
def applyEvents (s : EngineState) (es : List EngineEvent) : EngineState :=
  es.foldl applyEvent s

/-- A sequence of candidate pop deliveries for one fixed (playerId, bubbleId)
key: each element tells whether that delivery was a local collision report
(true) or a remote pop message (false). -/
def processPopSequence (s : EngineState) (bubbleId : Int) (playerId : String)
    (flags : List Bool) : EngineState :=
  flags.foldl (fun st b => (handleBubblePop st bubbleId playerId b).1) s

/-! Concrete states used by witnesses and counterexamples. -/

/-- A ready engine with no players, seed 0 and local actor identifier me. -/
def baseState : EngineState :=
  { selfId := "me", isReady := true, isDestroyed := false, syncSeed := 0,
    lastSlotIndex := -1, lastGroundedState := none, poppedIndices := [],
    processedPopEvents := [], bubbles := [], players := [], pendingPlayers := [],
    serverState := none }

/-- A player resting on the floor (passes the grounded test). -/
def groundedPlayer : Player :=
  { pos := ⟨5, worldHeight - avatarRadius⟩, vel := ⟨0, 0⟩, isGrounded := true, popCount := 0 }

/-- A player high above the floor (fails the grounded test). -/
def airbornePlayer : Player :=
  { pos := ⟨1, 1⟩, vel := ⟨0, 0⟩, isGrounded := false, popCount := 0 }

/-- Engine with the local actor me and remote actor bob, key (bob, 7) already seen. -/
def exSeen : EngineState :=
  { baseState with players := [("me", groundedPlayer), ("bob", airbornePlayer)],
                   processedPopEvents := [("bob", 7)] }

/-- Engine with the local actor me and remote actor bob, nothing processed. -/
def exTwo : EngineState :=
  { baseState with players := [("me", groundedPlayer), ("bob", airbornePlayer)] }

/-- Engine whose local actor already holds 5 points. -/
def exScore : EngineState :=
  { baseState with players := [("me", { groundedPlayer with popCount := 5 })] }

/-- Engine with the local actor me and a remote actor bob resting on the
floor of the receiving client's simulation. -/
def exLaunch : EngineState :=
  { baseState with players := [("me", airbornePlayer), ("bob", groundedPlayer)] }

/-- A fresh engine before its asynchronous initialization finished. -/
def exFresh : EngineState := { baseState with isReady := false }

/-- An empty authoritative server ledger. -/
def exLedger : MinigameLedger := { popCounts := [], poppedBubbles := [], playerPops := [] }

/-! Basic lemmas about the association-list and set operations. -/

theorem mem_listInsert_of_mem {β : Type} [DecidableEq β] {a : β} (b : β) {l : List β}
    (h : a ∈ l) : a ∈ listInsert b l := by
  unfold listInsert
  split
  · exact h
  · exact List.mem_cons_of_mem _ h

theorem self_mem_listInsert {β : Type} [DecidableEq β] (b : β) (l : List β) :
    b ∈ listInsert b l := by
  unfold listInsert
  split
  · assumption
  · exact List.mem_cons_self _ _

theorem lookupA_setAssoc_self {κ α : Type} [BEq κ] [LawfulBEq κ] (l : List (κ × α))
    (k : κ) (v : α) : lookupA (setAssoc l k v) k = some v := by
  induction l with
  | nil => simp [setAssoc, lookupA]
  | cons q rest ih =>
    cases hq : q.1 == k with
    | true => simp [setAssoc, lookupA, hq]
    | false => simp [setAssoc, lookupA, hq, ih]

theorem lookupA_setAssoc_ne {κ α : Type} [BEq κ] [LawfulBEq κ] (l : List (κ × α))
    {k k2 : κ} (v : α) (h : ¬k2 = k) :
    lookupA (setAssoc l k v) k2 = lookupA l k2 := by
  induction l with
  | nil =>
    simp [setAssoc, lookupA]
    intro hk
    exact absurd hk.symm h
  | cons q rest ih =>
    cases hq : q.1 == k with
    | true =>
      have hqk : q.1 = k := by exact eq_of_beq hq
      have hk2 : (k == k2) = false := by
        simp only [beq_eq_false_iff_ne, ne_eq]
        intro hk
        exact h hk.symm
      have hq2 : (q.1 == k2) = false := by rw [hqk]; exact hk2
      simp [setAssoc, lookupA, hq, hk2, hq2]
    | false => simp [setAssoc, lookupA, hq, ih]

theorem mem_fst_setAssoc {κ α : Type} [BEq κ] [LawfulBEq κ] {i : κ} {l : List (κ × α)}
    (k : κ) (v : α) (h : i ∈ (setAssoc l k v).map Prod.fst) :
    i = k ∨ i ∈ l.map Prod.fst := by
  induction l with
  | nil =>
    rw [setAssoc, List.map_cons] at h
    rcases List.mem_cons.1 h with h | h
    · exact Or.inl h
    · simp at h
  | cons q rest ih =>
    cases hq : q.1 == k with
    | true =>
      rw [setAssoc] at h
      simp only [hq, if_true, List.map_cons] at h
      rcases List.mem_cons.1 h with h | h
      · exact Or.inl h
      · exact Or.inr (by rw [List.map_cons]; exact List.mem_cons_of_mem _ h)
    | false =>
      rw [setAssoc] at h
      simp only [hq, if_false, Bool.false_eq_true, List.map_cons] at h
      rcases List.mem_cons.1 h with h | h
      · exact Or.inr (by rw [List.map_cons]; exact List.mem_cons.2 (Or.inl h))
      · rcases ih h with h2 | h2
        · exact Or.inl h2
        · exact Or.inr (by rw [List.map_cons]; exact List.mem_cons_of_mem _ h2)

theorem removeAssoc_sublist {κ α : Type} [BEq κ] (l : List (κ × α)) (k : κ) :
    List.Sublist (removeAssoc l k) l := by
  induction l with
  | nil => simp [removeAssoc]
  | cons q rest ih =>
    rw [removeAssoc]
    cases hq : q.1 == k with
    | true => simp only [if_true]; exact List.sublist_cons_of_sublist _ (List.Sublist.refl _)
    | false => simp only [if_false, Bool.false_eq_true]; exact List.Sublist.cons₂ _ ih

theorem mem_fst_removeAssoc {κ α : Type} [BEq κ] {i : κ} {l : List (κ × α)} (k : κ)
    (h : i ∈ (removeAssoc l k).map Prod.fst) : i ∈ l.map Prod.fst :=
  ((removeAssoc_sublist l k).map Prod.fst).mem h

/-! Characterization of handleBubblePop on the score-relevant fields. -/

/-- Score of a state only depends on its players map. -/
theorem scoreOf_eq_of_players_eq {s1 s2 : EngineState} (pid : String)
    (h : s1.players = s2.players) : scoreOf s1 pid = scoreOf s2 pid := by
  simp [scoreOf, getPlayer, h]

/-- The retirement prefix never touches the players map. -/
theorem retireBubble_players (s : EngineState) (bid : Int) :
    (retireBubble s bid).players = s.players := by
  unfold retireBubble
  dsimp only
  split <;> rfl

/-- The retirement prefix never touches the seen-set. -/
theorem retireBubble_processed (s : EngineState) (bid : Int) :
    (retireBubble s bid).processedPopEvents = s.processedPopEvents := by
  unfold retireBubble
  dsimp only
  split <;> rfl

/-- The retirement prefix inserts exactly the given index into the popped set. -/
theorem retireBubble_popped (s : EngineState) (bid : Int) :
    (retireBubble s bid).poppedIndices = listInsert bid s.poppedIndices := by
  unfold retireBubble
  dsimp only
  split <;> rfl

/-- The retirement prefix never adds a live bubble. -/
theorem retireBubble_bubbleIds {i : Int} (s : EngineState) (bid : Int)
    (h : i ∈ bubbleIds (retireBubble s bid)) : i ∈ bubbleIds s := by
  unfold retireBubble at h
  unfold bubbleIds at h ⊢
  dsimp only at h
  split at h
  · exact mem_fst_removeAssoc _ h
  · exact h

/-- Case analysis of handleBubblePop: either the call does not touch the
players map or the seen-set (a remote delivery, or an already-seen key), or
it is the first local delivery of the key, which inserts the key and, when
the acting player exists, bumps exactly that player's counter. -/
theorem handleBubblePop_char (s : EngineState) (bid : Int) (pid : String) (b : Bool) :
    ((handleBubblePop s bid pid b).1.players = s.players ∧
     (handleBubblePop s bid pid b).1.processedPopEvents = s.processedPopEvents ∧
     (b = false ∨ (pid, bid) ∈ s.processedPopEvents)) ∨
    (b = true ∧ (pid, bid) ∉ s.processedPopEvents ∧
     (handleBubblePop s bid pid b).1.processedPopEvents = (pid, bid) :: s.processedPopEvents ∧
     ((getPlayer s pid = none ∧ (handleBubblePop s bid pid b).1.players = s.players) ∨
      (∃ p, getPlayer s pid = some p ∧
        (handleBubblePop s bid pid b).1.players =
          setAssoc s.players pid { p with popCount := p.popCount + 1 }))) := by
  have hP := retireBubble_players s bid
  have hE := retireBubble_processed s bid
  unfold handleBubblePop
  cases b with
  | false =>
    left
    exact ⟨hP, hE, Or.inl rfl⟩
  | true =>
    by_cases hmem : (pid, bid) ∈ s.processedPopEvents
    · left
      simp only [hE]
      rw [if_pos hmem]
      exact ⟨hP, hE, Or.inr hmem⟩
    · simp only [hE]
      rw [if_neg hmem]
      right
      refine ⟨trivial, hmem, ?_, ?_⟩
      · cases hp : lookupA s.players pid with
        | none => simp [getPlayer, hP, hp, hE]
        | some p => simp [getPlayer, hP, hp, hE]
      · cases hp : lookupA s.players pid with
        | none =>
          left
          constructor
          · simpa [getPlayer] using hp
          · simp [getPlayer, hP, hp, hE]
        | some p =>
          right
          refine ⟨p, by simpa [getPlayer] using hp, ?_⟩
          simp [getPlayer, hP, hp, hE]

/-- Per-delivery effect of handleBubblePop on the score of the acting
player: the score is unchanged or bumped by one; a delivery of an
already-seen key never changes the score and keeps the key seen; a
delivery that bumps the score leaves the key seen. -/
theorem popStep (s : EngineState) (bid : Int) (pid : String) (b : Bool) :
    (scoreOf (handleBubblePop s bid pid b).1 pid = scoreOf s pid ∨
      scoreOf (handleBubblePop s bid pid b).1 pid = scoreOf s pid + 1) ∧
    ((pid, bid) ∈ s.processedPopEvents →
      scoreOf (handleBubblePop s bid pid b).1 pid = scoreOf s pid ∧
      (pid, bid) ∈ (handleBubblePop s bid pid b).1.processedPopEvents) ∧
    (scoreOf (handleBubblePop s bid pid b).1 pid = scoreOf s pid + 1 →
      (pid, bid) ∈ (handleBubblePop s bid pid b).1.processedPopEvents) := by
  rcases handleBubblePop_char s bid pid b with ⟨hPl, hPr, _⟩ | ⟨_, hmem, hPr, hcases⟩
  · have hs := scoreOf_eq_of_players_eq pid hPl
    refine ⟨Or.inl hs, fun hm => ⟨hs, hPr ▸ hm⟩, fun hinc => ?_⟩
    exact absurd (hs.symm.trans hinc) (by omega)
  · rcases hcases with ⟨hnone, hPl⟩ | ⟨p, hp, hPl⟩
    · have hs := scoreOf_eq_of_players_eq pid hPl
      refine ⟨Or.inl hs, fun hm => absurd hm hmem, fun hinc => ?_⟩
      exact absurd (hs.symm.trans hinc) (by omega)
    · have hres : scoreOf (handleBubblePop s bid pid b).1 pid = p.popCount + 1 := by
        simp [scoreOf, getPlayer, hPl, lookupA_setAssoc_self]
      have hcur : scoreOf s pid = p.popCount := by simp [scoreOf, hp]
      refine ⟨Or.inr (by rw [hres, hcur]), fun hm => absurd hm hmem, fun _ => ?_⟩
      rw [hPr]
      exact List.mem_cons_self _ _

/-- C1: for a fixed key (actorId, slotIndex), over any sequence of candidate
pop deliveries for that key (local collision reports, remote pop messages,
interleaved and duplicated arbitrarily), the local score counter of that
actor is incremented at most once: the final score equals the initial score
or the initial score plus one, and if the key was already in the seen-set at
the start, the score does not change at all (later deliveries perform only
the retirement). -/
theorem popEvents_score_at_most_once (s : EngineState) (bid : Int) (pid : String)
    (flags : List Bool) :
    (scoreOf (processPopSequence s bid pid flags) pid = scoreOf s pid ∨
      scoreOf (processPopSequence s bid pid flags) pid = scoreOf s pid + 1) ∧
    ((pid, bid) ∈ s.processedPopEvents →
      scoreOf (processPopSequence s bid pid flags) pid = scoreOf s pid) := by
  induction flags generalizing s with
  | nil => exact ⟨Or.inl rfl, fun _ => rfl⟩
  | cons b rest ih =>
    obtain ⟨hor, hseen, hinc⟩ := popStep s bid pid b
    have hfold : processPopSequence s bid pid (b :: rest) =
        processPopSequence (handleBubblePop s bid pid b).1 bid pid rest := rfl
    rw [hfold]
    obtain ⟨ihor, ihseen⟩ := ih (handleBubblePop s bid pid b).1
    constructor
    · rcases hor with h0 | h1
      · rcases ihor with h | h
        · exact Or.inl (h.trans h0)
        · exact Or.inr (by rw [h, h0])
      · exact Or.inr ((ihseen (hinc h1)).trans h1)
    · intro hm
      obtain ⟨hsame, hkey⟩ := hseen hm
      exact (ihseen hkey).trans hsame

/-- Witness for C1 at a concrete engine state: the key (bob, 7) is already
seen, and a further local-remote-local burst of deliveries leaves the score
of bob unchanged. -/
theorem popEvents_score_at_most_once_witness :
    (("bob", (7 : Int)) ∈ exSeen.processedPopEvents) ∧
      scoreOf (processPopSequence exSeen 7 ("bob") [true, false, true]) ("bob") =
        scoreOf exSeen ("bob") :=
  ⟨by decide,
    (popEvents_score_at_most_once exSeen 7 ("bob") [true, false, true]).2 (by decide)⟩

/-- Shape of the onPopCallback result: either absent, or reporting exactly
the acting player and bubble of the call. -/
theorem handleBubblePop_cb_shape (s : EngineState) (bid : Int) (pid : String) (b : Bool) :
    (handleBubblePop s bid pid b).2 = none ∨
    ∃ n, (handleBubblePop s bid pid b).2 = some (pid, bid, n) := by
  have hE := retireBubble_processed s bid
  unfold handleBubblePop
  cases b with
  | false => exact Or.inl rfl
  | true =>
    by_cases hmem : (pid, bid) ∈ s.processedPopEvents
    · simp only [hE]
      rw [if_pos hmem]
      exact Or.inl rfl
    · simp only [hE]
      rw [if_neg hmem]
      have hP := retireBubble_players s bid
      cases hp : lookupA s.players pid with
      | none =>
        left
        simp [getPlayer, hP, hp]
      | some p =>
        right
        exact ⟨p.popCount + 1, by simp [getPlayer, hP, hp]⟩

/-- On the first local delivery of a key for a known player, the callback
carries the freshly incremented score of that player. -/
theorem handleBubblePop_cb_some (s : EngineState) (bid : Int) (pid : String) (p : Player)
    (hun : (pid, bid) ∉ s.processedPopEvents) (hp : getPlayer s pid = some p) :
    (handleBubblePop s bid pid true).2 = some (pid, bid, p.popCount + 1) := by
  have hE := retireBubble_processed s bid
  have hP := retireBubble_players s bid
  have hp2 : lookupA s.players pid = some p := hp
  unfold handleBubblePop
  simp only [hE]
  rw [if_neg hun]
  simp [getPlayer, hP, hp2]

/-- Counterexample to C2 as stated: with local actor me, a locally simulated
collision of the remote actor bob with bubble 7 (a candidate pop whose
acting actor is non-local) does change a score counter: it bumps the local
counter of bob from 0 to 1. -/
theorem local_collision_scores_remote_actor_cex :
    exTwo.selfId = "me" ∧ scoreOf exTwo ("bob") = 0 ∧
      scoreOf (handleBubblePop exTwo 7 ("bob") true).1 ("bob") = 1 := by decide

/-- C2 (amended): when a candidate pop for an unseen key is processed, the
engine increments the acting player's counter and fires the pop callback
whenever the event is a local collision report, regardless of whether that
player is the local actor; a remote pop message never changes the players
map (hence no score counter); and the outbound pop notification is emitted
by the wrapper only when the acting actor is the local actor. -/
theorem pop_scoring_event_locality (s : EngineState) (bid : Int) (pid : String) (p : Player)
    (hun : (pid, bid) ∉ s.processedPopEvents) (hp : getPlayer s pid = some p) :
    scoreOf (handleBubblePop s bid pid true).1 pid = scoreOf s pid + 1 ∧
    (handleBubblePop s bid pid true).2 = some (pid, bid, p.popCount + 1) ∧
    (∀ (s2 : EngineState) (bid2 : Int) (pid2 : String),
      (handleBubblePop s2 bid2 pid2 false).1.players = s2.players) ∧
    (∀ (s2 : EngineState) (bid2 : Int) (pid2 : String) (b : Bool), pid2 ≠ s2.selfId →
      wrapperEmit s2.selfId (handleBubblePop s2 bid2 pid2 b).2 = none) := by
  refine ⟨?_, handleBubblePop_cb_some s bid pid p hun hp, ?_, ?_⟩
  · rcases handleBubblePop_char s bid pid true with ⟨_, _, hor⟩ | ⟨_, _, _, hcases⟩
    · rcases hor with h | h
      · exact absurd h (by simp)
      · exact absurd h hun
    · rcases hcases with ⟨hnone, _⟩ | ⟨p2, hp2, hPl⟩
      · rw [hp] at hnone
        cases hnone
      · rw [hp] at hp2
        injection hp2 with hpe
        subst hpe
        have hres : scoreOf (handleBubblePop s bid pid true).1 pid = p.popCount + 1 := by
          simp [scoreOf, getPlayer, hPl, lookupA_setAssoc_self]
        have hcur : scoreOf s pid = p.popCount := by simp [scoreOf, hp]
        rw [hres, hcur]
  · intro s2 bid2 pid2
    rcases handleBubblePop_char s2 bid2 pid2 false with ⟨hPl, _, _⟩ | ⟨hb, _⟩
    · exact hPl
    · cases hb
  · intro s2 bid2 pid2 b hne
    rcases handleBubblePop_cb_shape s2 bid2 pid2 b with hn | ⟨n, hsome⟩
    · rw [hn]
      rfl
    · rw [hsome]
      simp [wrapperEmit, hne]

/-- Witness for the amended C2: the non-local actor bob, colliding locally
with bubble 7 from a fresh seen-set, gains one point and the callback
reports the new score 1. -/
theorem pop_scoring_event_locality_witness :
    scoreOf (handleBubblePop exTwo 7 ("bob") true).1 ("bob") = scoreOf exTwo ("bob") + 1 ∧
      (handleBubblePop exTwo 7 ("bob") true).2 = some ("bob", 7, 1) :=
  ⟨(pop_scoring_event_locality exTwo 7 ("bob") airbornePlayer (by decide) (by decide)).1,
   (pop_scoring_event_locality exTwo 7 ("bob") airbornePlayer (by decide) (by decide)).2.1⟩

/-- One periodic-merge entry never changes the local actor identifier. -/
theorem scoreMergeStep_selfId (st : EngineState) (pc : String × Nat) :
    (scoreMergeStep st pc).selfId = st.selfId := by
  unfold scoreMergeStep
  split
  · rfl
  · split
    · split
      · rfl
      · rfl
    · rfl

/-- One periodic-merge entry never lowers the local actor's score. -/
theorem scoreMergeStep_self_mono (st : EngineState) (pc : String × Nat) :
    scoreOf st st.selfId ≤ scoreOf (scoreMergeStep st pc) st.selfId := by
  unfold scoreMergeStep
  cases hp : lookupA st.players pc.1 with
  | none => exact le_refl _
  | some p =>
    cases hself : pc.1 == st.selfId with
    | true =>
      have hpid : pc.1 = st.selfId := eq_of_beq hself
      cases hgt : decide (pc.2 > p.popCount) with
      | true =>
        have hgt2 : pc.2 > p.popCount := of_decide_eq_true hgt
        simp only [hself, if_true, hgt2]
        have hcur : scoreOf st st.selfId = p.popCount := by
          rw [← hpid]
          simp [scoreOf, getPlayer, hp]
        have hnew : scoreOf
            { st with players := setAssoc st.players pc.1 ({ p with popCount := pc.2 }) }
            st.selfId = pc.2 := by
          rw [← hpid]
          simp [scoreOf, getPlayer, lookupA_setAssoc_self]
        rw [hcur, hnew]
        exact le_of_lt hgt2
      | false =>
        have hle : ¬pc.2 > p.popCount := of_decide_eq_false hgt
        simp only [hself, if_true, hle, if_false]
        exact le_refl _
    | false =>
      have hpid : ¬pc.1 = st.selfId := ne_of_beq_false hself
      simp only [hself, Bool.false_eq_true, if_false]
      have hother : lookupA (setAssoc st.players pc.1 ({ p with popCount := pc.2 })) st.selfId =
          lookupA st.players st.selfId :=
        lookupA_setAssoc_ne _ _ (fun h => hpid h.symm)
      simp [scoreOf, getPlayer, hother]

/-- A whole periodic merge never changes the local actor identifier. -/
theorem syncScores_selfId (s : EngineState) (table : List (String × Nat)) :
    (syncScores s (some table)).selfId = s.selfId := by
  show (table.foldl scoreMergeStep s).selfId = s.selfId
  induction table generalizing s with
  | nil => rfl
  | cons pc rest ih => exact (ih (scoreMergeStep s pc)).trans (scoreMergeStep_selfId s pc)

/-- A whole periodic merge never lowers the local actor's score. -/
theorem syncScores_self_mono (s : EngineState) (table : List (String × Nat)) :
    scoreOf s s.selfId ≤ scoreOf (syncScores s (some table)) s.selfId := by
  show scoreOf s s.selfId ≤ scoreOf (table.foldl scoreMergeStep s) s.selfId
  induction table generalizing s with
  | nil => exact le_refl _
  | cons pc rest ih =>
    have h1 := scoreMergeStep_self_mono s pc
    have h2 := ih (scoreMergeStep s pc)
    rw [scoreMergeStep_selfId s pc] at h2
    exact le_trans h1 (by simpa using h2)

/-- A sequence of periodic merges never lowers the local actor's score. -/
theorem periodicMerges_self_mono (tables : List (List (String × Nat))) (s : EngineState) :
    scoreOf s s.selfId ≤ scoreOf (periodicMerges s tables) s.selfId := by
  unfold periodicMerges
  induction tables generalizing s with
  | nil => exact le_refl _
  | cons table rest ih =>
    have h1 := syncScores_self_mono s table
    have h2 := ih (syncScores s (some table))
    rw [syncScores_selfId s table] at h2
    exact le_trans h1 (by simpa using h2)

/-- Counterexample to C3 as stated: the snapshot merge does not apply the
periodic acceptance rule to the local actor: a snapshot carrying 3 for a
local actor holding 5 lowers the observed score to 3. -/
theorem snapshot_merge_lowers_self_score_cex :
    exScore.selfId = "me" ∧ scoreOf exScore ("me") = 5 ∧
      scoreOf (syncMinigameState exScore (some ⟨[], [("me", 3)], []⟩)) ("me") = 3 := by
  decide

/-- C3 (amended): across any sequence of periodic authoritative merges the
local actor's observed score is non-decreasing, because an incoming value
for the local actor is accepted only when it strictly exceeds the current
one; a full-snapshot merge, however, overwrites a known actor's score with
the snapshot value unconditionally, local actor included, and may lower it. -/
theorem self_score_monotone_under_periodic_merges (s : EngineState)
    (tables : List (List (String × Nat))) (pid : String) (c : Nat) (p : Player)
    (hp : getPlayer s pid = some p) :
    scoreOf s s.selfId ≤ scoreOf (periodicMerges s tables) s.selfId ∧
    scoreOf (syncMinigameState s (some ⟨[], [(pid, c)], []⟩)) pid = c := by
  constructor
  · exact periodicMerges_self_mono tables s
  · have hp2 : lookupA s.players pid = some p := hp
    simp [syncMinigameState, snapshotScoreStep, scoreOf, getPlayer, hp2,
      lookupA_setAssoc_self]

/-- Witness for the amended C3 at concrete inputs: merging two tables whose
second entry is smaller than the held score leaves the local score at 5, and
a singleton snapshot overwrites it to 3. -/
theorem self_score_monotone_witness :
    scoreOf exScore exScore.selfId ≤
      scoreOf (periodicMerges exScore [[("me", 2)], [("me", 1)]]) exScore.selfId ∧
      scoreOf (syncMinigameState exScore (some ⟨[], [("me", 3)], []⟩)) ("me") = 3 :=
  self_score_monotone_under_periodic_merges exScore [[("me", 2)], [("me", 1)]] ("me") 3
    { groundedPlayer with popCount := 5 } rfl

/-- C4: reconciliation of a remote actor's position/velocity sample at
squared distance dsq from the current simulated position (the source
compares the square root of dsq with 2.0 and 0.05, equivalently dsq with 4
and 1/400): above the hard-snap threshold the position and velocity exactly
equal the sample; between dead-zone and hard-snap the new position is the
0.3-blend, strictly between the old position and the sample, and the
velocity is the 0.2-blend; at or below the dead-zone nothing changes. -/
theorem remote_sample_reconciliation (s : EngineState) (pid : String) (p : Player)
    (sx sy svx svy : ℚ) (hself : pid ≠ s.selfId) (hp : getPlayer s pid = some p) :
    ((sx - p.pos.x) * (sx - p.pos.x) + (sy - p.pos.y) * (sy - p.pos.y) > 4 →
      getPlayer (syncPlayerState s pid sx sy svx svy) pid =
        some { p with pos := ⟨sx, sy⟩, vel := ⟨svx, svy⟩ }) ∧
    ((sx - p.pos.x) * (sx - p.pos.x) + (sy - p.pos.y) * (sy - p.pos.y) ≤ 4 →
      (sx - p.pos.x) * (sx - p.pos.x) + (sy - p.pos.y) * (sy - p.pos.y) > 1 / 400 →
      getPlayer (syncPlayerState s pid sx sy svx svy) pid =
        some { p with pos := vlerp p.pos ⟨sx, sy⟩ (3 / 10),
                      vel := vlerp p.vel ⟨svx, svy⟩ (1 / 5) } ∧
      strictlyBetween p.pos (vlerp p.pos ⟨sx, sy⟩ (3 / 10)) ⟨sx, sy⟩) ∧
    ((sx - p.pos.x) * (sx - p.pos.x) + (sy - p.pos.y) * (sy - p.pos.y) ≤ 1 / 400 →
      syncPlayerState s pid sx sy svx svy = s) := by
  have hbeq : (pid == s.selfId) = false := by simpa using hself
  have hp2 : lookupA s.players pid = some p := hp
  refine ⟨fun h1 => ?_, fun h1 h2 => ?_, fun h1 => ?_⟩
  · unfold syncPlayerState
    simp only [hbeq, Bool.false_eq_true, if_false, getPlayer, hp2]
    rw [if_pos h1]
    simp [getPlayer, lookupA_setAssoc_self]
  · constructor
    · unfold syncPlayerState
      simp only [hbeq, Bool.false_eq_true, if_false, getPlayer, hp2]
      rw [if_neg (not_lt.2 h1), if_pos h2]
      simp [getPlayer, lookupA_setAssoc_self]
    · refine ⟨⟨3 / 10, by norm_num, by norm_num, rfl⟩, ?_, ?_⟩
      · intro heq
        have hx := congrArg Vec2.x heq
        have hy := congrArg Vec2.y heq
        simp [vlerp] at hx hy
        have hdx : sx - p.pos.x = 0 := by linarith
        have hdy : sy - p.pos.y = 0 := by linarith
        rw [hdx, hdy] at h2
        norm_num at h2
      · intro heq
        have hx := congrArg Vec2.x heq
        have hy := congrArg Vec2.y heq
        simp [vlerp] at hx hy
        have hdx : sx - p.pos.x = 0 := by linarith
        have hdy : sy - p.pos.y = 0 := by linarith
        rw [hdx, hdy] at h2
        norm_num at h2
  · unfold syncPlayerState
    simp only [hbeq, Bool.false_eq_true, if_false, getPlayer, hp2]
    rw [if_neg (by linarith), if_neg (not_lt.2 h1)]

/-- Witness for C4 at concrete samples for the remote actor bob at position
(1, 1): a far sample (10, 10) snaps exactly, a mid sample (3/2, 1) blends,
and a near sample (1001/1000, 1) changes nothing. -/
theorem remote_sample_reconciliation_witness :
    getPlayer (syncPlayerState exTwo ("bob") 10 10 0 0) ("bob") =
      some { airbornePlayer with pos := ⟨10, 10⟩, vel := ⟨0, 0⟩ } ∧
    getPlayer (syncPlayerState exTwo ("bob") (3 / 2) 1 0 0) ("bob") =
      some { airbornePlayer with pos := vlerp airbornePlayer.pos ⟨3 / 2, 1⟩ (3 / 10),
                                 vel := vlerp airbornePlayer.vel ⟨0, 0⟩ (1 / 5) } ∧
    syncPlayerState exTwo ("bob") (1001 / 1000) 1 0 0 = exTwo :=
  ⟨(remote_sample_reconciliation exTwo ("bob") airbornePlayer 10 10 0 0 (by decide) rfl).1
      (by norm_num [airbornePlayer]),
   ((remote_sample_reconciliation exTwo ("bob") airbornePlayer (3 / 2) 1 0 0 (by decide)
        rfl).2.1 (by norm_num [airbornePlayer]) (by norm_num [airbornePlayer])).1,
   (remote_sample_reconciliation exTwo ("bob") airbornePlayer (1001 / 1000) 1 0 0 (by decide)
      rfl).2.2 (by norm_num [airbornePlayer])⟩

/-- C5: the derived bubble parameters are a pure function of the shared
seed and the slot index: in any history of spawner calls, the result at a
position is exactly bubbleParams of the hashed shared seed plus that slot
index, so two evaluations of the same (seed, slotIndex) pair, at any
positions of any two histories, are identical — the generator is reseeded
per invocation and no generator state is carried between calls. -/
theorem spawn_params_pure (sharedSeed : String) (slots1 slots2 : List Int) (i j : Nat)
    (sl : Int) (h1 : slots1[i]? = some sl) (h2 : slots2[j]? = some sl) :
    (spawnParamsTrace sharedSeed slots1)[i]? =
      some (bubbleParams (hashString sharedSeed) sl) ∧
    (spawnParamsTrace sharedSeed slots1)[i]? = (spawnParamsTrace sharedSeed slots2)[j]? := by
  unfold spawnParamsTrace
  constructor
  · simp [List.getElem?_map, h1]
  · simp [List.getElem?_map, h1, h2]

/-- Witness for C5: slot 3 evaluated second in one history and first in
another yields the same parameters. -/
theorem spawn_params_pure_witness :
    (spawnParamsTrace ("room1") [5, 3])[1]? =
      some (bubbleParams (hashString ("room1")) 3) ∧
    (spawnParamsTrace ("room1") [5, 3])[1]? = (spawnParamsTrace ("room1") [3])[0]? :=
  spawn_params_pure ("room1") [5, 3] [3] 1 0 3 rfl rfl

/-- Counterexample to C6 as stated: with last-known slot 5 and wall time
16000 ms (current slot 8, so k = 3), the update tick requests only slot 8;
slots 6 and 7 are not requested. -/
theorem update_spawns_only_current_slot_cex :
    (updateSlotCheck 5 16000).1 = [8] ∧ (6 : Int) ∉ (updateSlotCheck 5 16000).1 ∧
      (updateSlotCheck 5 16000).1 ≠ [6, 7, 8] := by
  have h8 : ⌊(16000 : ℚ) / bubbleSpawnInterval⌋ = 8 := by
    rw [bubbleSpawnInterval]
    norm_num
  refine ⟨?_, ?_, ?_⟩ <;> simp [updateSlotCheck, h8]

/-- C6 (amended): on a tick whose current slot exceeds the last-known slot,
the simulation loop requests a spawn only for the current slot and advances
lastSlotIndex to it; every slot strictly between the last-known slot and the
current slot is skipped (the multi-slot catch-up exists only in the
initialization lookback). -/
theorem update_slot_catchup_single (lastSlotIndex : Int) (now : ℚ)
    (h : ⌊now / bubbleSpawnInterval⌋ > lastSlotIndex) :
    updateSlotCheck lastSlotIndex now =
      ([⌊now / bubbleSpawnInterval⌋], ⌊now / bubbleSpawnInterval⌋) ∧
    ∀ i : Int, lastSlotIndex < i → i < ⌊now / bubbleSpawnInterval⌋ →
      i ∉ (updateSlotCheck lastSlotIndex now).1 := by
  constructor
  · simp [updateSlotCheck, h]
  · intro i hlt hlt2
    simp [updateSlotCheck, h]
    omega

/-- Witness for the amended C6 at last slot 5 and time 16000 ms. -/
theorem update_slot_catchup_single_witness :
    updateSlotCheck 5 16000 =
      ([⌊(16000 : ℚ) / bubbleSpawnInterval⌋], ⌊(16000 : ℚ) / bubbleSpawnInterval⌋) ∧
      (6 : Int) ∉ (updateSlotCheck 5 16000).1 := by
  have h8 : ⌊(16000 : ℚ) / bubbleSpawnInterval⌋ = 8 := by
    rw [bubbleSpawnInterval]
    norm_num
  exact ⟨(update_slot_catchup_single 5 16000 (by rw [h8]; norm_num)).1,
    (update_slot_catchup_single 5 16000 (by rw [h8]; norm_num)).2 6 (by norm_num)
      (by rw [h8]; norm_num)⟩

/-- The score phase of handleBubblePop does not change the popped set:
after a delivery it is exactly the retirement insertion. -/
theorem handleBubblePop_popped (s : EngineState) (bid : Int) (pid : String) (b : Bool) :
    (handleBubblePop s bid pid b).1.poppedIndices = listInsert bid s.poppedIndices := by
  have hE := retireBubble_processed s bid
  have hP := retireBubble_players s bid
  have hPop := retireBubble_popped s bid
  unfold handleBubblePop
  cases b with
  | false => exact hPop
  | true =>
    by_cases hmem : (pid, bid) ∈ s.processedPopEvents
    · simp only [hE]
      rw [if_pos hmem]
      exact hPop
    · simp only [hE]
      rw [if_neg hmem]
      cases hp : lookupA s.players pid with
      | none => simp [getPlayer, hP, hp, hPop]
      | some p => simp [getPlayer, hP, hp, hPop]

/-- The score phase of handleBubblePop does not change the bubbles map. -/
theorem handleBubblePop_bubbles (s : EngineState) (bid : Int) (pid : String) (b : Bool) :
    (handleBubblePop s bid pid b).1.bubbles = (retireBubble s bid).bubbles := by
  have hE := retireBubble_processed s bid
  have hP := retireBubble_players s bid
  unfold handleBubblePop
  cases b with
  | false => rfl
  | true =>
    by_cases hmem : (pid, bid) ∈ s.processedPopEvents
    · simp only [hE]
      rw [if_pos hmem]
      simp
    · simp only [hE]
      rw [if_neg hmem]
      cases hp : lookupA s.players pid with
      | none => simp [getPlayer, hP, hp]
      | some p => simp [getPlayer, hP, hp]

/-- One popped-index entry of a snapshot merge inserts that index. -/
theorem snapshotPopStep_popped (acc : EngineState) (id : Int) :
    (snapshotPopStep acc id).poppedIndices = listInsert id acc.poppedIndices := by
  unfold snapshotPopStep
  dsimp only
  split <;> rfl

/-- One popped-index entry of a snapshot merge never adds a live bubble. -/
theorem snapshotPopStep_bubbleIds {i : Int} (acc : EngineState) (id : Int)
    (h : i ∈ bubbleIds (snapshotPopStep acc id)) : i ∈ bubbleIds acc := by
  unfold snapshotPopStep at h
  unfold bubbleIds at h ⊢
  dsimp only at h
  split at h
  · exact mem_fst_removeAssoc _ h
  · exact h

/-- A snapshot score entry leaves the popped set and the bubbles map alone. -/
theorem snapshotScoreStep_world (acc : EngineState) (pc : String × Nat) :
    (snapshotScoreStep acc pc).poppedIndices = acc.poppedIndices ∧
    (snapshotScoreStep acc pc).bubbles = acc.bubbles := by
  unfold snapshotScoreStep
  split <;> exact ⟨rfl, rfl⟩

/-- A snapshot seen-set entry leaves the popped set and the bubbles map alone. -/
theorem snapshotSeenStep_world (acc : EngineState) (pp : String × List Int) :
    (snapshotSeenStep acc pp).poppedIndices = acc.poppedIndices ∧
    (snapshotSeenStep acc pp).bubbles = acc.bubbles := by
  unfold snapshotSeenStep
  induction pp.2 generalizing acc with
  | nil => exact ⟨rfl, rfl⟩
  | cons b rest ih =>
    rw [List.foldl_cons]
    exact ih _

/-- A periodic score-merge entry leaves the popped set and the bubbles map alone. -/
theorem scoreMergeStep_world (st : EngineState) (pc : String × Nat) :
    (scoreMergeStep st pc).poppedIndices = st.poppedIndices ∧
    (scoreMergeStep st pc).bubbles = st.bubbles := by
  unfold scoreMergeStep
  split
  · exact ⟨rfl, rfl⟩
  · split
    · split
      · exact ⟨rfl, rfl⟩
      · exact ⟨rfl, rfl⟩
    · exact ⟨rfl, rfl⟩

/-- A whole periodic score merge leaves the popped set and the bubbles map alone. -/
theorem syncScores_world (s : EngineState) (table : List (String × Nat)) :
    (syncScores s (some table)).poppedIndices = s.poppedIndices ∧
    (syncScores s (some table)).bubbles = s.bubbles := by
  show ((table.foldl scoreMergeStep s).poppedIndices = s.poppedIndices ∧
    (table.foldl scoreMergeStep s).bubbles = s.bubbles)
  induction table generalizing s with
  | nil => exact ⟨rfl, rfl⟩
  | cons pc rest ih =>
    rw [List.foldl_cons]
    obtain ⟨h1, h2⟩ := ih (scoreMergeStep s pc)
    obtain ⟨g1, g2⟩ := scoreMergeStep_world s pc
    exact ⟨h1.trans g1, h2.trans g2⟩

/-- The spawner leaves the popped set alone. -/
theorem spawnDeterministicBubble_popped (s : EngineState) (slot : Int) (now : ℚ) :
    (spawnDeterministicBubble s slot now).poppedIndices = s.poppedIndices := by
  unfold spawnDeterministicBubble
  split
  · rfl
  · split
    · rfl
    · dsimp only
      split <;> rfl

/-- The spawner never materializes a bubble for an index already popped, and
more generally the only index it can add is one that is not popped. -/
theorem spawnDeterministicBubble_no_respawn {i : Int} (s : EngineState) (slot : Int)
    (now : ℚ) (hpop : i ∈ s.poppedIndices) (hb : i ∉ bubbleIds s) :
    i ∉ bubbleIds (spawnDeterministicBubble s slot now) := by
  unfold spawnDeterministicBubble
  split
  · exact hb
  · split
    · exact hb
    · dsimp only
      split
      · exact hb
      · rename_i hguard hlookup hy
        intro hmem
        unfold bubbleIds at hmem
        rcases mem_fst_setAssoc _ _ hmem with heq | hold
        · push_neg at hguard
          exact hguard.2.1 (heq ▸ hpop)
        · exact hb hold

/-- A position-sample reconciliation leaves the popped set and the bubbles
map alone. -/
theorem syncPlayerState_world (s : EngineState) (pid : String) (a b c d : ℚ) :
    (syncPlayerState s pid a b c d).poppedIndices = s.poppedIndices ∧
    (syncPlayerState s pid a b c d).bubbles = s.bubbles := by
  unfold syncPlayerState
  split
  · exact ⟨rfl, rfl⟩
  · split
    · exact ⟨rfl, rfl⟩
    · dsimp only
      split
      · exact ⟨rfl, rfl⟩
      · split
        · exact ⟨rfl, rfl⟩
        · exact ⟨rfl, rfl⟩

/-- A launch leaves the popped set and the bubbles map alone. -/
theorem launchAvatar_world (s : EngineState) (pid : String) (c sn pw : ℚ) :
    (launchAvatar s pid c sn pw).1.poppedIndices = s.poppedIndices ∧
    (launchAvatar s pid c sn pw).1.bubbles = s.bubbles := by
  unfold launchAvatar
  split
  · exact ⟨rfl, rfl⟩
  · split
    · exact ⟨rfl, rfl⟩
    · split
      · exact ⟨rfl, rfl⟩
      · dsimp only
        split <;> exact ⟨rfl, rfl⟩

/-- An inbound remote launch leaves the popped set and the bubbles map alone. -/
theorem handleOtherLaunch_world (s : EngineState) (pid : String) (c sn pw : ℚ) :
    (handleOtherLaunch s pid c sn pw).poppedIndices = s.poppedIndices ∧
    (handleOtherLaunch s pid c sn pw).bubbles = s.bubbles := by
  unfold handleOtherLaunch
  split
  · exact ⟨rfl, rfl⟩
  · exact launchAvatar_world s pid c sn pw

/-- Adding a player leaves the popped set and the bubbles map alone. -/
theorem addPlayer_world (s : EngineState) (pid seed : String) (own : Bool) :
    (addPlayer s pid seed own).poppedIndices = s.poppedIndices ∧
    (addPlayer s pid seed own).bubbles = s.bubbles := by
  unfold addPlayer
  split
  · exact ⟨rfl, rfl⟩
  · split
    · exact ⟨rfl, rfl⟩
    · dsimp only
      split <;> exact ⟨rfl, rfl⟩

/-- Removing a player leaves the popped set and the bubbles map alone. -/
theorem removePlayer_world (s : EngineState) (pid : String) :
    (removePlayer s pid).poppedIndices = s.poppedIndices ∧
    (removePlayer s pid).bubbles = s.bubbles := by
  unfold removePlayer
  split <;> exact ⟨rfl, rfl⟩

/-- A snapshot merge keeps every previously popped index popped and never
adds a live bubble. -/
theorem syncMinigameState_retirement {i : Int} (s : EngineState) (st : Snapshot)
    (hpop : i ∈ s.poppedIndices) (hb : i ∉ bubbleIds s) :
    i ∈ (syncMinigameState s (some st)).poppedIndices ∧
    i ∉ bubbleIds (syncMinigameState s (some st)) := by
  unfold syncMinigameState
  dsimp only
  have step1 : ∀ (l : List Int) (acc : EngineState), i ∈ acc.poppedIndices →
      i ∉ bubbleIds acc →
      i ∈ (l.foldl snapshotPopStep acc).poppedIndices ∧
      i ∉ bubbleIds (l.foldl snapshotPopStep acc) := by
    intro l
    induction l with
    | nil => exact fun acc h1 h2 => ⟨h1, h2⟩
    | cons id rest ih =>
      intro acc h1 h2
      rw [List.foldl_cons]
      refine ih _ ?_ ?_
      · rw [snapshotPopStep_popped]
        exact mem_listInsert_of_mem _ h1
      · intro hmem
        exact h2 (snapshotPopStep_bubbleIds acc id hmem)
  have step2 : ∀ (l : List (String × Nat)) (acc : EngineState),
      (l.foldl snapshotScoreStep acc).poppedIndices = acc.poppedIndices ∧
      (l.foldl snapshotScoreStep acc).bubbles = acc.bubbles := by
    intro l
    induction l with
    | nil => exact fun acc => ⟨rfl, rfl⟩
    | cons pc rest ih =>
      intro acc
      rw [List.foldl_cons]
      obtain ⟨h1, h2⟩ := ih (snapshotScoreStep acc pc)
      obtain ⟨g1, g2⟩ := snapshotScoreStep_world acc pc
      exact ⟨h1.trans g1, h2.trans g2⟩
  have step3 : ∀ (l : List (String × List Int)) (acc : EngineState),
      (l.foldl snapshotSeenStep acc).poppedIndices = acc.poppedIndices ∧
      (l.foldl snapshotSeenStep acc).bubbles = acc.bubbles := by
    intro l
    induction l with
    | nil => exact fun acc => ⟨rfl, rfl⟩
    | cons pp rest ih =>
      intro acc
      rw [List.foldl_cons]
      obtain ⟨h1, h2⟩ := ih (snapshotSeenStep acc pp)
      obtain ⟨g1, g2⟩ := snapshotSeenStep_world acc pp
      exact ⟨h1.trans g1, h2.trans g2⟩
  obtain ⟨h1, h2⟩ := step1 st.poppedBubbles { s with serverState := some st } hpop hb
  obtain ⟨g1, g2⟩ :=
    step2 st.popCounts (st.poppedBubbles.foldl snapshotPopStep { s with serverState := some st })
  obtain ⟨k1, k2⟩ := step3 st.playerPops
    (st.popCounts.foldl snapshotScoreStep
      (st.poppedBubbles.foldl snapshotPopStep { s with serverState := some st }))
  refine ⟨?_, ?_⟩
  · rw [k1, g1]
    exact h1
  · unfold bubbleIds
    rw [k2, g2]
    exact h2

/-- A snapshot merge keeps every previously popped index popped, with no
assumption on the live bubbles. -/
theorem syncMinigameState_popped_mono {i : Int} (s : EngineState) (st : Snapshot)
    (hpop : i ∈ s.poppedIndices) :
    i ∈ (syncMinigameState s (some st)).poppedIndices := by
  unfold syncMinigameState
  dsimp only
  have step1 : ∀ (l : List Int) (acc : EngineState), i ∈ acc.poppedIndices →
      i ∈ (l.foldl snapshotPopStep acc).poppedIndices := by
    intro l
    induction l with
    | nil => exact fun acc h1 => h1
    | cons id rest ih =>
      intro acc h1
      rw [List.foldl_cons]
      refine ih _ ?_
      rw [snapshotPopStep_popped]
      exact mem_listInsert_of_mem _ h1
  have step2 : ∀ (l : List (String × Nat)) (acc : EngineState),
      (l.foldl snapshotScoreStep acc).poppedIndices = acc.poppedIndices := by
    intro l
    induction l with
    | nil => exact fun acc => rfl
    | cons pc rest ih =>
      intro acc
      rw [List.foldl_cons]
      exact (ih (snapshotScoreStep acc pc)).trans (snapshotScoreStep_world acc pc).1
  have step3 : ∀ (l : List (String × List Int)) (acc : EngineState),
      (l.foldl snapshotSeenStep acc).poppedIndices = acc.poppedIndices := by
    intro l
    induction l with
    | nil => exact fun acc => rfl
    | cons pp rest ih =>
      intro acc
      rw [List.foldl_cons]
      exact (ih (snapshotSeenStep acc pp)).trans (snapshotSeenStep_world acc pp).1
  rw [step3, step2]
  exact step1 st.poppedBubbles { s with serverState := some st } hpop

/-- One engine event keeps a popped index popped. -/
theorem applyEvent_popped_mono {i : Int} (s : EngineState) (e : EngineEvent)
    (hpop : i ∈ s.poppedIndices) : i ∈ (applyEvent s e).poppedIndices := by
  cases e with
  | popEvt bid pid loc =>
    show i ∈ (handleBubblePop s bid pid loc).1.poppedIndices
    rw [handleBubblePop_popped]
    exact mem_listInsert_of_mem _ hpop
  | snapshotEvt st => exact syncMinigameState_popped_mono s st hpop
  | spawnEvt slot now =>
    show i ∈ (spawnDeterministicBubble s slot now).poppedIndices
    rw [spawnDeterministicBubble_popped]
    exact hpop
  | scoresEvt table => exact (syncScores_world s table).1 ▸ hpop
  | sampleEvt pid a b c d => exact (syncPlayerState_world s pid a b c d).1 ▸ hpop
  | launchEvt pid c sn pw => exact (handleOtherLaunch_world s pid c sn pw).1 ▸ hpop
  | addEvt pid seed own => exact (addPlayer_world s pid seed own).1 ▸ hpop
  | removeEvt pid => exact (removePlayer_world s pid).1 ▸ hpop

/-- One engine event never re-adds a live bubble for a popped index. -/
theorem applyEvent_no_respawn {i : Int} (s : EngineState) (e : EngineEvent)
    (hpop : i ∈ s.poppedIndices) (hb : i ∉ bubbleIds s) :
    i ∉ bubbleIds (applyEvent s e) := by
  cases e with
  | popEvt bid pid loc =>
    show i ∉ bubbleIds (handleBubblePop s bid pid loc).1
    unfold bubbleIds
    rw [handleBubblePop_bubbles]
    intro hmem
    exact hb (retireBubble_bubbleIds s bid hmem)
  | snapshotEvt st => exact (syncMinigameState_retirement s st hpop hb).2
  | spawnEvt slot now => exact spawnDeterministicBubble_no_respawn s slot now hpop hb
  | scoresEvt table =>
    show i ∉ bubbleIds (syncScores s (some table))
    unfold bubbleIds
    rw [(syncScores_world s table).2]
    exact hb
  | sampleEvt pid a b c d =>
    show i ∉ bubbleIds (syncPlayerState s pid a b c d)
    unfold bubbleIds
    rw [(syncPlayerState_world s pid a b c d).2]
    exact hb
  | launchEvt pid c sn pw =>
    show i ∉ bubbleIds (handleOtherLaunch s pid c sn pw)
    unfold bubbleIds
    rw [(handleOtherLaunch_world s pid c sn pw).2]
    exact hb
  | addEvt pid seed own =>
    show i ∉ bubbleIds (addPlayer s pid seed own)
    unfold bubbleIds
    rw [(addPlayer_world s pid seed own).2]
    exact hb
  | removeEvt pid =>
    show i ∉ bubbleIds (removePlayer s pid)
    unfold bubbleIds
    rw [(removePlayer_world s pid).2]
    exact hb

/-- C7: once an engine instance has observed a slot index as popped — via a
local collision, a remote pop message, or a snapshot merge, all of which go
through the popped-set insertion — the index stays in the popped set under
every further sequence of engine events, and the spawner never again
materializes a bubble with that index: if the index has no live bubble, it
never has one again. -/
theorem popped_index_permanently_retired (s : EngineState) (es : List EngineEvent)
    (i : Int) (hpop : i ∈ s.poppedIndices) :
    i ∈ (applyEvents s es).poppedIndices ∧
    (i ∉ bubbleIds s → i ∉ bubbleIds (applyEvents s es)) := by
  induction es generalizing s with
  | nil => exact ⟨hpop, fun h => h⟩
  | cons e rest ih =>
    have h1 : i ∈ (applyEvent s e).poppedIndices := applyEvent_popped_mono s e hpop
    obtain ⟨k1, k2⟩ := ih (applyEvent s e) h1
    refine ⟨k1, fun hb => k2 (applyEvent_no_respawn s e hpop hb)⟩

/-- Witness for C7: with slot 7 popped and no live bubbles, a snapshot, a
spawner call for slot 7 and a remote pop leave 7 popped and never
materialize bubble 7. -/
theorem popped_index_permanently_retired_witness :
    (7 : Int) ∈ ({ baseState with poppedIndices := [7] } : EngineState).poppedIndices ∧
    ((7 : Int) ∈ (applyEvents { baseState with poppedIndices := [7] }
        [EngineEvent.snapshotEvt ⟨[2], [], []⟩, EngineEvent.spawnEvt 7 14000,
         EngineEvent.popEvt 7 ("bob") false]).poppedIndices ∧
      ((7 : Int) ∉ bubbleIds ({ baseState with poppedIndices := [7] } : EngineState) →
        (7 : Int) ∉ bubbleIds (applyEvents { baseState with poppedIndices := [7] }
          [EngineEvent.snapshotEvt ⟨[2], [], []⟩, EngineEvent.spawnEvt 7 14000,
           EngineEvent.popEvt 7 ("bob") false]))) :=
  ⟨by decide,
    popped_index_permanently_retired { baseState with poppedIndices := [7] }
      [EngineEvent.snapshotEvt ⟨[2], [], []⟩, EngineEvent.spawnEvt 7 14000,
       EngineEvent.popEvt 7 ("bob") false] 7 (by decide)⟩

/-- The airborne example player fails the grounded threshold test. -/
theorem airbornePlayer_not_grounded : isGroundedTest airbornePlayer = false := by
  unfold isGroundedTest airbornePlayer groundedYThreshold worldHeight avatarRadius
  norm_num

/-- The floor-resting example player passes the grounded threshold test. -/
theorem groundedPlayer_is_grounded : isGroundedTest groundedPlayer = true := by
  norm_num [isGroundedTest, groundedPlayer, groundedYThreshold, worldHeight, avatarRadius]

/-- Counterexample to C8 as stated: an inbound remote launch for the known
non-local actor bob, whose locally simulated body is airborne, is NOT
applied: the receiving engine re-checks the grounded gate and drops the
launch, leaving the state (velocity included) unchanged. -/
theorem remote_launch_gate_not_bypassed_cex :
    isPlayerGrounded exTwo ("bob") = false ∧
      handleOtherLaunch exTwo ("bob") 1 0 10 = exTwo ∧
      (getPlayer exTwo ("bob")).map Player.vel = some ⟨0, 0⟩ := by
  have hp : getPlayer exTwo ("bob") = some airbornePlayer := rfl
  refine ⟨?_, ?_, rfl⟩
  · unfold isPlayerGrounded
    rw [hp]
    exact airbornePlayer_not_grounded
  · unfold handleOtherLaunch
    rw [if_neg (by decide)]
    unfold launchAvatar
    rw [if_neg (by decide)]
    rw [hp]
    dsimp only
    rw [if_pos airbornePlayer_not_grounded]

/-- C8 (amended): an inbound remote launch message for a known non-local
actor is applied through the same launchAvatar path as a local launch,
including the grounded gate evaluated on the receiving client's own
simulation of that actor: when the gate fails the message is dropped and
the state is unchanged; when it passes, the clamped launch velocity is
applied and the actor is marked airborne. -/
theorem remote_launch_applies_grounded_gate (s : EngineState) (pid : String) (p : Player)
    (cosA sinA power : ℚ) (hself : pid ≠ s.selfId) (hready : s.isReady = true)
    (hp : getPlayer s pid = some p) :
    (isGroundedTest p = false → handleOtherLaunch s pid cosA sinA power = s) ∧
    (isGroundedTest p = true →
      ∃ p2, getPlayer (handleOtherLaunch s pid cosA sinA power) pid = some p2 ∧
        p2.vel = ⟨cosA * clampQ power minLaunchPower maxLaunchPower,
                  sinA * clampQ power minLaunchPower maxLaunchPower⟩ ∧
        p2.isGrounded = false ∧ p2.pos = p.pos) := by
  have hbeq : (pid == s.selfId) = false := by simpa using hself
  constructor
  · intro hg
    unfold handleOtherLaunch
    simp only [hbeq, Bool.false_eq_true, if_false]
    unfold launchAvatar
    rw [if_neg (by simp [hready])]
    rw [hp]
    dsimp only
    rw [if_pos hg]
  · intro hg
    unfold handleOtherLaunch
    simp only [hbeq, Bool.false_eq_true, if_false]
    unfold launchAvatar
    rw [if_neg (by simp [hready])]
    rw [hp]
    dsimp only
    rw [if_neg (by simp [hg])]
    simp only [hbeq, Bool.false_eq_true, if_false]
    refine ⟨{ pos := p.pos,
              vel := ⟨cosA * clampQ power minLaunchPower maxLaunchPower,
                      sinA * clampQ power minLaunchPower maxLaunchPower⟩,
              isGrounded := false, popCount := p.popCount }, ?_, rfl, rfl, rfl⟩
    simp [getPlayer, lookupA_setAssoc_self]

/-- Witness for the amended C8: the launch for airborne bob is dropped, and
the launch for floor-resting bob applies the clamped velocity (1, 0) times
10 and marks him airborne. -/
theorem remote_launch_applies_grounded_gate_witness :
    handleOtherLaunch exTwo ("bob") 1 0 10 = exTwo ∧
    (∃ p2, getPlayer (handleOtherLaunch exLaunch ("bob") 1 0 10) ("bob") = some p2 ∧
      p2.vel = ⟨1 * clampQ 10 minLaunchPower maxLaunchPower,
                0 * clampQ 10 minLaunchPower maxLaunchPower⟩ ∧
      p2.isGrounded = false ∧ p2.pos = groundedPlayer.pos) :=
  ⟨(remote_launch_applies_grounded_gate exTwo ("bob") airbornePlayer 1 0 10 (by decide)
      rfl rfl).1 airbornePlayer_not_grounded,
   (remote_launch_applies_grounded_gate exLaunch ("bob") groundedPlayer 1 0 10 (by decide)
      rfl rfl).2 groundedPlayer_is_grounded⟩

/-- The spawner does nothing on an engine that is not ready. -/
theorem spawn_not_ready (s : EngineState) (i : Int) (now : ℚ) (h : s.isReady = false) :
    spawnDeterministicBubble s i now = s := by
  unfold spawnDeterministicBubble
  rw [if_pos (Or.inl h)]

/-- The init catch-up spawn fold does nothing on an engine that is not
ready (in the source the catch-up runs before isReady is set). -/
theorem initSpawnFold_not_ready (l : List Int) (now : ℚ) (st : EngineState)
    (h : st.isReady = false) : l.foldl (initSpawnStep now) st = st := by
  induction l with
  | nil => rfl
  | cons i rest ih =>
    rw [List.foldl_cons]
    have hstep : initSpawnStep now st i = st := by
      unfold initSpawnStep
      split
      · exact spawn_not_ready st i now h
      · rfl
    rw [hstep]
    exact ih

/-- Closed form of initComplete on a not-ready engine: record the current
slot, set readiness, replay the queued adds in order, clear the queue; the
catch-up spawner calls are no-ops because they run before isReady is set. -/
theorem initComplete_eq (s : EngineState) (now : ℚ) (h : s.isReady = false) :
    initComplete s now =
      withPending (s.pendingPlayers.foldl replayAddStep (readyBase s now)) [] := by
  unfold initComplete withPending readyBase
  dsimp only
  rw [initSpawnFold_not_ready (catchupSlots ⌊now / bubbleSpawnInterval⌋) now
      { s with lastSlotIndex := ⌊now / bubbleSpawnInterval⌋ - 1 } h]

/-- Before readiness, a batch of addPlayer calls only appends the requests
to the pending queue, in call order. -/
theorem preReadyAdds_queue (adds : List (String × String × Bool)) (s : EngineState)
    (h : s.isReady = false) :
    adds.foldl replayAddStep s = withPending s (s.pendingPlayers ++ adds) := by
  induction adds generalizing s with
  | nil => simp [withPending]
  | cons r rest ih =>
    rw [List.foldl_cons]
    have hstep : replayAddStep s r = withPending s (s.pendingPlayers ++ [r]) := by
      unfold replayAddStep addPlayer withPending
      rw [if_pos h]
    rw [hstep]
    rw [ih (withPending s (s.pendingPlayers ++ [r])) h]
    simp [withPending]

/-- On a ready engine, addPlayer for an already known player is a no-op. -/
theorem addPlayer_ready_present (st : EngineState) (pid seed : String) (own : Bool)
    (h : st.isReady = true) (hp : (getPlayer st pid).isSome = true) :
    addPlayer st pid seed own = st := by
  unfold addPlayer
  rw [if_neg (by simp [h]), if_pos hp]

/-- On a ready engine, addPlayer for an unknown player inserts the derived
player record, and marks the local actor when isOwn. -/
theorem addPlayer_ready_absent (st : EngineState) (pid seed : String) (own : Bool)
    (h : st.isReady = true) (hp : (getPlayer st pid).isSome = false) :
    addPlayer st pid seed own =
      (if own then
        { st with players := setAssoc st.players pid (newPlayerFor st.serverState pid),
                  selfId := pid, lastGroundedState := some true }
      else
        { st with players := setAssoc st.players pid (newPlayerFor st.serverState pid) }) := by
  unfold addPlayer
  rw [if_neg (by simp [h]), if_neg (by simp [hp])]

/-- On a ready engine, addPlayer neither reads nor writes the pending
queue: it commutes with overriding that queue, and preserves readiness. -/
theorem replayAddStep_pending (st : EngineState) (P : List (String × String × Bool))
    (r : String × String × Bool) (h : st.isReady = true) :
    replayAddStep (withPending st P) r = withPending (replayAddStep st r) P ∧
    (replayAddStep st r).isReady = true := by
  obtain ⟨pid, seed, own⟩ := r
  unfold replayAddStep
  have hP : (withPending st P).isReady = true := h
  by_cases hmem : (getPlayer st pid).isSome = true
  · have hmemP : (getPlayer (withPending st P) pid).isSome = true := hmem
    rw [addPlayer_ready_present st pid seed own h hmem,
      addPlayer_ready_present (withPending st P) pid seed own hP hmemP]
    exact ⟨rfl, h⟩
  · have hmem2 : (getPlayer st pid).isSome = false := by
      cases hval : (getPlayer st pid).isSome
      · rfl
      · exact absurd hval hmem
    have hmemP : (getPlayer (withPending st P) pid).isSome = false := hmem2
    rw [addPlayer_ready_absent st pid seed own h hmem2,
      addPlayer_ready_absent (withPending st P) pid seed own hP hmemP]
    cases own
    · exact ⟨rfl, h⟩
    · exact ⟨rfl, h⟩

/-- On a ready engine, a fold of addPlayer calls commutes with overriding
the pending queue, and preserves readiness. -/
theorem replayFold_pending (l : List (String × String × Bool)) (st : EngineState)
    (P : List (String × String × Bool)) (h : st.isReady = true) :
    l.foldl replayAddStep (withPending st P) = withPending (l.foldl replayAddStep st) P ∧
    (l.foldl replayAddStep st).isReady = true := by
  induction l generalizing st with
  | nil => exact ⟨rfl, h⟩
  | cons r rest ih =>
    obtain ⟨hstep, hready⟩ := replayAddStep_pending st P r h
    rw [List.foldl_cons, List.foldl_cons, hstep]
    exact ih (replayAddStep st r) hready

/-- Counterexample to C9 as stated: on a fresh (not yet ready) engine, the
sequence addPlayer a then removePlayer a followed by initialization leaves
player a present, whereas issuing the same operations after readiness
leaves no player a: the remove issued before readiness is dropped, not
queued. -/
theorem pre_ready_remove_dropped_cex :
    (getPlayer (initComplete (removePlayer (addPlayer exFresh ("a") ("x") true) ("a")) 0)
        ("a")).isSome = true ∧
    getPlayer (removePlayer (addPlayer (initComplete exFresh 0) ("a") ("x") true) ("a"))
      ("a") = none := by
  constructor
  · have h1 : removePlayer (addPlayer exFresh ("a") ("x") true) ("a") =
        addPlayer exFresh ("a") ("x") true := rfl
    rw [h1, show addPlayer exFresh ("a") ("x") true =
      { exFresh with pendingPlayers := [("a", "x", true)] } from rfl]
    rw [initComplete_eq _ 0 rfl]
    rfl
  · rw [initComplete_eq exFresh 0 rfl]
    rfl

/-- C9 (amended): actor-add operations invoked before the engine finishes
its asynchronous initialization are queued in call order and replayed once
initialization completes, so the end state is the one obtained by issuing
the same add operations after readiness; actor-remove operations invoked
before readiness are dropped (on the pre-ready engine the players map is
still empty, and removePlayer ignores unknown players with no queueing). -/
theorem pre_ready_adds_queued_and_replayed (s : EngineState) (now : ℚ)
    (adds : List (String × String × Bool)) (h : s.isReady = false) :
    (adds.foldl replayAddStep s = { s with pendingPlayers := s.pendingPlayers ++ adds }) ∧
    initComplete (adds.foldl replayAddStep s) now =
      adds.foldl replayAddStep (initComplete s now) ∧
    (s.players = [] → ∀ pid, removePlayer s pid = s) := by
  refine ⟨preReadyAdds_queue adds s h, ?_, ?_⟩
  · have hq := preReadyAdds_queue adds s h
    rw [hq]
    rw [initComplete_eq (withPending s (s.pendingPlayers ++ adds)) now h,
      initComplete_eq s now h]
    rw [show (withPending s (s.pendingPlayers ++ adds)).pendingPlayers =
      s.pendingPlayers ++ adds from rfl]
    rw [show readyBase (withPending s (s.pendingPlayers ++ adds)) now =
      withPending (readyBase s now) (s.pendingPlayers ++ adds) from rfl]
    rw [(replayFold_pending (s.pendingPlayers ++ adds) (readyBase s now)
      (s.pendingPlayers ++ adds) rfl).1]
    rw [show withPending
      (withPending (List.foldl replayAddStep (readyBase s now) (s.pendingPlayers ++ adds))
        (s.pendingPlayers ++ adds)) [] =
      withPending (List.foldl replayAddStep (readyBase s now) (s.pendingPlayers ++ adds))
        [] from rfl]
    rw [List.foldl_append]
    rw [← (replayFold_pending adds
      (List.foldl replayAddStep (readyBase s now) s.pendingPlayers) []
      (replayFold_pending s.pendingPlayers (readyBase s now) [] rfl).2).1]
  · intro hpl pid
    unfold removePlayer
    have hnone : getPlayer s pid = none := by
      unfold getPlayer
      rw [hpl]
      rfl
    rw [hnone]

/-- Witness for the amended C9 at the fresh engine with one queued add. -/
theorem pre_ready_adds_queued_and_replayed_witness :
    ([(("a" : String), ("x" : String), true)].foldl replayAddStep exFresh =
      { exFresh with pendingPlayers := exFresh.pendingPlayers ++ [("a", "x", true)] }) ∧
    initComplete ([(("a" : String), ("x" : String), true)].foldl replayAddStep exFresh) 0 =
      [(("a" : String), ("x" : String), true)].foldl replayAddStep (initComplete exFresh 0) ∧
    (exFresh.players = [] → ∀ pid, removePlayer exFresh pid = exFresh) :=
  pre_ready_adds_queued_and_replayed exFresh 0 [("a", "x", true)] rfl

/-- C10: on the authoritative server ledger, the first recordMinigamePop
for a (playerId, bubbleId) pair increments exactly that player's pop count
by one and records the pair; a call for an already recorded pair returns
the ledger completely unchanged; and recorded pairs persist across any
further call — so two reports of the same pair add exactly 1, not 2. -/
theorem record_minigame_pop_idempotent (ms : MinigameLedger) (pid : String) (bid : Int) :
    (bid ∉ popsOf ms pid →
      countOf (recordMinigamePop ms pid bid).1 pid = countOf ms pid + 1 ∧
      (∀ q, ¬q = pid → countOf (recordMinigamePop ms pid bid).1 q = countOf ms q) ∧
      bid ∈ popsOf (recordMinigamePop ms pid bid).1 pid) ∧
    (bid ∈ popsOf ms pid → (recordMinigamePop ms pid bid).1 = ms) ∧
    (∀ q b, b ∈ popsOf ms q → b ∈ popsOf (recordMinigamePop ms pid bid).1 q) := by
  refine ⟨?_, ?_, ?_⟩
  · intro hun
    unfold recordMinigamePop
    rw [if_neg hun]
    dsimp only
    split
    · refine ⟨?_, ?_, ?_⟩
      · simp [countOf, lookupA_setAssoc_self]
      · intro q hq
        simp [countOf, lookupA_setAssoc_ne _ _ hq]
      · simp [popsOf, lookupA_setAssoc_self]
    · refine ⟨?_, ?_, ?_⟩
      · simp [countOf, lookupA_setAssoc_self]
      · intro q hq
        simp [countOf, lookupA_setAssoc_ne _ _ hq]
      · simp [popsOf, lookupA_setAssoc_self]
  · intro hmem
    unfold recordMinigamePop
    rw [if_pos hmem]
  · intro q b hb
    unfold recordMinigamePop
    by_cases hun : bid ∈ popsOf ms pid
    · rw [if_pos hun]
      exact hb
    · rw [if_neg hun]
      dsimp only
      have hstep : b ∈ popsOf
          { ms with playerPops := setAssoc ms.playerPops pid (bid :: popsOf ms pid) } q := by
        by_cases hq : q = pid
        · subst hq
          simp only [popsOf, lookupA_setAssoc_self, Option.getD_some]
          exact List.mem_cons_of_mem _ hb
        · simpa [popsOf, lookupA_setAssoc_ne _ _ hq] using hb
      split
      · exact hstep
      · exact hstep

/-- Witness for C10: on the empty ledger, a first report of (alice, 7)
raises alice from 0 to 1, and a duplicate report (for example from a second
client) leaves the ledger exactly as it was after the first. -/
theorem record_minigame_pop_idempotent_witness :
    countOf (recordMinigamePop exLedger ("alice") 7).1 ("alice") =
      countOf exLedger ("alice") + 1 ∧
    (recordMinigamePop (recordMinigamePop exLedger ("alice") 7).1 ("alice") 7).1 =
      (recordMinigamePop exLedger ("alice") 7).1 :=
  ⟨((record_minigame_pop_idempotent exLedger ("alice") 7).1 (by decide)).1,
   (record_minigame_pop_idempotent (recordMinigamePop exLedger ("alice") 7).1
      ("alice") 7).2.1 (by decide)⟩

end WhoSaidDis
